import Mathlib

/-!
Verification of the filter-and-subscription engine of the zkevm-node JSON-RPC
front-end (src/jsonrpc/endpoints_eth.go), against its natural-language
specification.

Shallow embedding conventions:
* Hashes, addresses, timestamps, filter IDs and opaque collaborator errors are
  modelled as natural numbers; the code only ever compares them for equality.
* Block references (explicit number or a symbolic tag such as latest/pending)
  are opaque: their resolution to a concrete block number is delegated to the
  chain-state collaborator, modelled as a function in `Env`
  (`GetNumericBlockNumber` in the source; a `none` argument models the Go call
  on a nil `*BlockNumber` receiver, as `internalGetLogs` does for `ToBlock`).
* The external collaborators (chain state, pool) are a record of functions
  (`Env`); fallible Go calls return `Except`.
* The filter store is a list of filter records; `GetFilter` is lookup by ID and
  `UpdateFilterLastPoll` is modelled as setting the record's `lastPoll` to the
  current time (`now` is an explicit parameter).
* Goroutine fan-out is modelled by the list of chunks the worker-pool splitter
  produces and the per-chunk sequences of enqueued messages; `recover` of a
  panicking chunk function is modelled by `Except.toOption`.
-/

namespace ZkEVM

/-- Max number of topics a log can have (`maxTopics` in the source). -/
def maxTopics : Nat := 4

/-- Account address, modelled as an opaque number. -/
abbrev Address := Nat

/-- 32-byte hash, modelled as an opaque number. -/
abbrev Hash := Nat

/-- Timestamp (`time.Time`), modelled as an opaque number. -/
abbrev Time := Nat

/-- Filter ID (opaque unique string in the source). -/
abbrev FilterId := Nat

/-- Opaque error value returned by a collaborator. -/
abbrev Err := Nat

/-- A block reference prior to numeric resolution (`types.BlockNumber`):
an explicit number or a symbolic tag, kept opaque here. -/
abbrev BlockRef := Int

/-- Connection handle (`*concurrentWsConn`), opaque. -/
abbrev Conn := Nat

/-- RPC error codes used by the endpoints (`types.DefaultErrorCode`,
`types.InvalidParamsErrorCode`). -/
inductive ErrCode where
  | defaultCode
  | invalidParams
deriving DecidableEq

/-- The fixed messages this file's slice of the code attaches to RPC errors. -/
inductive ErrMsg where
  | filterNotFound
  | failedToGetBlockHashes
  | failedToGetPendingTxHashes
  | failedToGetLogsFromState
  | blockNumberResolutionFailed
deriving DecidableEq

/-- A typed RPC error (`types.Error`). -/
structure RpcError where
  code : ErrCode
  msg : ErrMsg
deriving DecidableEq

/-- An execution log (`ethTypes.Log`), restricted to the fields the filter
engine reads: emitting address and topic list. -/
structure EthLog where
  address : Address
  topics : List Hash
deriving DecidableEq

/-- `LogFilter` parameters of a log filter registration. -/
structure LogFilter where
  fromBlock : Option BlockRef
  toBlock : Option BlockRef
  addresses : List Address
  topics : List (List Hash)
  blockHash : Option Hash
  since : Option Time
deriving DecidableEq

/-- Filter kind (`FilterTypeBlock`, `FilterTypeLog`, `FilterTypePendingTx`). -/
inductive FilterType where
  | block
  | log
  | pendingTx
deriving DecidableEq

/-- A stored filter registration (`Filter`). `parameters` is only meaningful
for `log` filters (in Go it is an `interface{}` asserted to `LogFilter` on
the log paths). -/
structure Filter where
  id : FilterId
  type : FilterType
  parameters : LogFilter
  lastPoll : Time
  wsConn : Option Conn
deriving DecidableEq

/-- The new-L2-block event delivered by the state collaborator
(`state.NewL2BlockEvent`): block number, block hash, ordered logs. -/
structure NewL2BlockEvent where
  blockNumber : Nat
  blockHash : Hash
  logs : List EthLog
deriving DecidableEq

/-- External collaborators (chain state and pool), specified at their
interface boundary. `resolveBlockRef` models
`(*types.BlockNumber).GetNumericBlockNumber` (a `none` argument is the Go
nil-receiver call); `getLogs` models `state.GetLogs`;
`getL2BlockHashesSince` models `state.GetL2BlockHashesSince`;
`getPendingTxHashesSince` models `pool.GetPendingTxHashesSince`. -/
structure Env where
  resolveBlockRef : Option BlockRef → Except RpcError Nat
  getLogs : Nat → Nat → List Address → List (List Hash) → Option Hash → Option Time →
    Except Err (List EthLog)
  getL2BlockHashesSince : Time → Except Err (List Hash)
  getPendingTxHashesSince : Time → Except Err (List Hash)

/-- `contains` from the source: linear membership test. -/
def contains {T : Type} [DecidableEq T] (items : List T) (itemToFind : T) : Bool :=
  match items with
  | [] => false
  | item :: rest => if item = itemToFind then true else contains rest itemToFind

/-- `types.NewLog`: conversion of a state log into its RPC representation,
identity at this level of modelling. -/
def NewLog (l : EthLog) : EthLog := l

/-- The topic loop of `filterLogs` (`for i := 0; i < maxTopics; i++` with its
break/continue structure). `fuel` is the number of remaining iterations, so the
loop guard `i < maxTopics` becomes `fuel > 0`; callers start at `i = 0` with
`fuel = maxTopics`. Reading `logFilter.Topics[i]` after the `checkTopic`
bound test is the `fTopics[i]?` lookup, and likewise for the log's topics. -/
def topicsLoopAux (fTopics : List (List Hash)) (lTopics : List Hash) : Nat → Nat → Bool
  | _, 0 => true
  | i, fuel + 1 =>
    match fTopics[i]? with
    | none => true
    | some slot =>
      if slot.length = 0 then topicsLoopAux fTopics lTopics (i + 1) fuel
      else
        match lTopics[i]? with
        | none => false
        | some t =>
          if contains slot t then topicsLoopAux fTopics lTopics (i + 1) fuel
          else false

/-- The per-log body of `filterLogs`: address check (skip the log when the
filter's address list is non-empty and does not contain the log's address),
then the topic loop when the filter defines topic slots. -/
def logMatches (logFilter : LogFilter) (l : EthLog) : Bool :=
  if logFilter.addresses.length > 0 && !(contains logFilter.addresses l.address) then
    false
  else if logFilter.topics.length > 0 then
    topicsLoopAux logFilter.topics l.topics 0 maxTopics
  else true

/-- `filterLogs` from the source: keep the logs the filter's parameters match,
converting each kept log with `types.NewLog`. -/
def filterLogs (logsToFilter : List EthLog) (filter : Filter) : List EthLog :=
  (logsToFilter.filter (fun l => logMatches filter.parameters l)).map NewLog

/-- `shouldSkipLogFilter` from the source: with a `BlockHash` constraint the
filter is skipped iff the hash differs from the event block's hash; otherwise
a set `FromBlock` (resp. `ToBlock`) is resolved and the filter is skipped when
resolution fails or the event block number lies outside the range. -/
def shouldSkipLogFilter (env : Env) (event : NewL2BlockEvent) (filter : Filter) : Bool :=
  let logFilter := filter.parameters
  match logFilter.blockHash with
  | some bh => decide (bh ≠ event.blockHash)
  | none =>
    let fromSkip :=
      match logFilter.fromBlock with
      | none => false
      | some fb =>
        match env.resolveBlockRef (some fb) with
        | Except.error _ => true
        | Except.ok fromBlock => decide (event.blockNumber < fromBlock)
    if fromSkip then true
    else
      match logFilter.toBlock with
      | none => false
      | some tb =>
        match env.resolveBlockRef (some tb) with
        | Except.error _ => true
        | Except.ok toBlock => decide (toBlock < event.blockNumber)

/-- The `FromBlock` prologue of `internalGetLogs`: `var fromBlock uint64 = 0`
overridden by numeric resolution when the filter sets `FromBlock`. -/
def resolveFromBlock (env : Env) (fromBlock : Option BlockRef) : Except RpcError Nat :=
  match fromBlock with
  | none => Except.ok 0
  | some fb => env.resolveBlockRef (some fb)

/-- `internalGetLogs` from the source: resolve `FromBlock` (defaulting to 0
when absent), resolve `ToBlock` (nil-receiver call when absent), query the
chain-state collaborator with the filter's addresses, topics, block hash and
`Since`, and return its logs converted with `types.NewLog`. -/
def internalGetLogs (env : Env) (filter : LogFilter) : Except RpcError (List EthLog) :=
  match resolveFromBlock env filter.fromBlock with
  | Except.error rpcErr => Except.error rpcErr
  | Except.ok fromBlock =>
    match env.resolveBlockRef filter.toBlock with
    | Except.error rpcErr => Except.error rpcErr
    | Except.ok toBlock =>
      match env.getLogs fromBlock toBlock filter.addresses filter.topics
          filter.blockHash filter.since with
      | Except.error _ =>
        Except.error ⟨ErrCode.defaultCode, ErrMsg.failedToGetLogsFromState⟩
      | Except.ok logs => Except.ok (logs.map NewLog)

/-- The filter's log parameters with `Since` set to its `LastPoll`, as the
`FilterTypeLog` branch of `GetFilterChanges` does. -/
def withSince (f : Filter) : LogFilter :=
  ⟨f.parameters.fromBlock, f.parameters.toBlock, f.parameters.addresses,
   f.parameters.topics, f.parameters.blockHash, some f.lastPoll⟩

/-- The filter's log parameters with `Since` cleared, as `GetFilterLogs`
does before delegating to `GetLogs`. -/
def withSinceNone (f : Filter) : LogFilter :=
  ⟨f.parameters.fromBlock, f.parameters.toBlock, f.parameters.addresses,
   f.parameters.topics, f.parameters.blockHash, none⟩

/-- The payload of a successful `GetFilterChanges` call: block hashes, pending
transaction hashes, or logs, depending on the filter type. -/
inductive FilterChanges where
  | blockHashes : List Hash → FilterChanges
  | pendingTxHashes : List Hash → FilterChanges
  | logs : List EthLog → FilterChanges
deriving DecidableEq

/-- The dispatch-on-type body of `GetFilterChanges` for an already-looked-up
filter. Returns the RPC result (`none` models the JSON `null` returned when
there are no changes) together with the filter's `LastPoll` value after the
call: `updateFilterLastPoll` runs only on the success paths and sets it to
`now`; on a retrieval error the cursor is left unchanged. -/
def getFilterChangesCore (env : Env) (now : Time) (filter : Filter) :
    Except RpcError (Option FilterChanges) × Time :=
  match filter.type with
  | FilterType.block =>
    match env.getL2BlockHashesSince filter.lastPoll with
    | Except.error _ =>
      (Except.error ⟨ErrCode.defaultCode, ErrMsg.failedToGetBlockHashes⟩, filter.lastPoll)
    | Except.ok res =>
      if res.length = 0 then (Except.ok none, now)
      else (Except.ok (some (FilterChanges.blockHashes res)), now)
  | FilterType.pendingTx =>
    match env.getPendingTxHashesSince filter.lastPoll with
    | Except.error _ =>
      (Except.error ⟨ErrCode.defaultCode, ErrMsg.failedToGetPendingTxHashes⟩, filter.lastPoll)
    | Except.ok res =>
      if res.length = 0 then (Except.ok none, now)
      else (Except.ok (some (FilterChanges.pendingTxHashes res)), now)
  | FilterType.log =>
    match internalGetLogs env (withSince filter) with
    | Except.error rpcErr => (Except.error rpcErr, filter.lastPoll)
    | Except.ok res =>
      if res.length = 0 then (Except.ok none, now)
      else (Except.ok (some (FilterChanges.logs res)), now)

/-- `storage.GetFilter`: lookup of a filter by ID in the store. -/
def getFilter (storage : List Filter) (filterID : FilterId) : Option Filter :=
  storage.find? (fun f => f.id == filterID)

/-- The store after `UpdateFilterLastPoll`-style assignment of a filter's
`lastPoll` field. -/
def setLastPoll (storage : List Filter) (filterID : FilterId) (t : Time) : List Filter :=
  storage.map (fun f => if f.id == filterID then ⟨f.id, f.type, f.parameters, t, f.wsConn⟩ else f)

/-- `GetFilterChanges` endpoint: look up the filter (RPC error
`filter not found` when absent), dispatch on its type, and persist the
possibly-advanced `LastPoll` cursor. -/
def GetFilterChanges (env : Env) (now : Time) (storage : List Filter) (filterID : FilterId) :
    Except RpcError (Option FilterChanges) × List Filter :=
  match getFilter storage filterID with
  | none => (Except.error ⟨ErrCode.defaultCode, ErrMsg.filterNotFound⟩, storage)
  | some filter =>
    let r := getFilterChangesCore env now filter
    (r.1, setLastPoll storage filterID r.2)

/-- `GetFilterLogs` endpoint: on a missing filter the source returns
`nil, nil` (a null result, no error); on a filter whose type is not
`FilterTypeLog` it also returns `nil, nil`; otherwise it clears `Since` and
delegates to `GetLogs`/`internalGetLogs`. It never mutates the store. -/
def GetFilterLogs (env : Env) (storage : List Filter) (filterID : FilterId) :
    Except RpcError (Option (List EthLog)) × List Filter :=
  match getFilter storage filterID with
  | none => (Except.ok none, storage)
  | some filter =>
    if filter.type ≠ FilterType.log then (Except.ok none, storage)
    else
      match internalGetLogs env (withSinceNone filter) with
      | Except.error e => (Except.error e, storage)
      | Except.ok ls => (Except.ok (some ls), storage)

/-- `workersCount` computed by `parallelize`: the worker limit capped by the
number of items. -/
def workersCountOf (maxW n : Nat) : Nat :=
  if maxW > n then n else maxW

/-- `jobSize` computed by `parallelize`: integer division rounded up when
there is a remainder. -/
def jobSizeOf (n wc : Nat) : Nat :=
  if n % wc > 0 then n / wc + 1 else n / wc

/-- The slice `items[rangeStart:rangeEnd]` a worker receives in `parallelize`,
with `rangeStart = worker * jobSize` and `rangeEnd = (worker + 1) * jobSize`
clamped to the item count. -/
def sliceOf {T : Type} (items : List T) (jobSize worker : Nat) : List T :=
  (items.drop (worker * jobSize)).take
    ((if (worker + 1) * jobSize > items.length then items.length
      else (worker + 1) * jobSize) - worker * jobSize)

/-- One worker's slice in `parallelize`: `none` when the worker is skipped
(`rangeStart > len(items)`), otherwise the worker index with its slice. -/
def chunkOf {T : Type} (items : List T) (jobSize worker : Nat) : Option (Nat × List T) :=
  if worker * jobSize > items.length then none
  else some (worker, sliceOf items jobSize worker)

/-- The chunk decomposition performed by `parallelize`: an empty item list
spawns nothing; otherwise one slice per non-skipped worker, in worker order. -/
def parallelizeChunks {T : Type} (maxW : Nat) (items : List T) : List (Nat × List T) :=
  if items.length = 0 then []
  else
    let workersCount := workersCountOf maxW items.length
    let jobSize := jobSizeOf items.length workersCount
    (List.range workersCount).filterMap (chunkOf items jobSize)

/-- `parallelize` from the source, observed through per-chunk results: the
chunk function may fail (a Go panic is an `Except.error`), and the
`defer`/`recover` wrapper of each worker goroutine swallows the failure
(`Except.toOption`), so the caller always receives one entry per spawned
chunk and no error ever propagates. -/
def parallelize {T α : Type} (maxW : Nat) (items : List T)
    (fn : Nat → List T → Except Err α) : List (Nat × Option α) :=
  (parallelizeChunks maxW items).map (fun p => (p.1, (fn p.1 p.2).toOption))

/-- The `maxWorkers` constant fixed by the fan-out callers
(`notifyNewHeads` and `notifyNewLogs`). -/
def maxWorkers : Nat := 16

/-- The chunk worker body of `notifyNewLogs`, returning the sequence of
(filter ID, serialized log) messages it enqueues, in enqueue order.
Faithful to the source: when `shouldSkipLogFilter` holds for a filter the
worker executes `return`, abandoning the remaining filters of the chunk. -/
def notifyLogsChunk (env : Env) (event : NewL2BlockEvent) :
    List Filter → List (FilterId × EthLog)
  | [] => []
  | f :: rest =>
    if shouldSkipLogFilter env event f then []
    else
      (filterLogs event.logs f).map (fun l => (f.id, l))
        ++ notifyLogsChunk env event rest

/-- `notifyNewLogs` from the source, observed as the multiset of enqueued
(filter ID, serialized log) messages: the live log filters are split by
`parallelize` with `maxWorkers = 16` and each chunk runs
`notifyLogsChunk`. -/
def notifyNewLogs (env : Env) (event : NewL2BlockEvent) (filters : List Filter) :
    List (FilterId × EthLog) :=
  ((parallelizeChunks maxWorkers filters).map (fun p => notifyLogsChunk env event p.2)).flatten

/-- Reference log matcher, modelled from the spec's words (§4.1 LogMatcher),
topic part: walk the defined slots positionally, accepting as soon as no
further slot is defined; an empty slot is a wildcard; otherwise the log must
have a topic at that position belonging to the slot's set. -/
def slotsAccept : List (List Hash) → List Hash → Nat → Bool
  | [], _, _ => true
  | slot :: rest, lTopics, i =>
    if slot.length = 0 then slotsAccept rest lTopics (i + 1)
    else
      match lTopics[i]? with
      | none => false
      | some t => contains slot t && slotsAccept rest lTopics (i + 1)

/-- Reference log matcher, modelled from the spec's words (§4.1 LogMatcher):
address membership (empty set matches any address) conjoined with the
positional topic-slot check. -/
def matchesSpec (S : LogFilter) (L : EthLog) : Bool :=
  (S.addresses.length = 0 || contains S.addresses L.address)
    && slotsAccept S.topics L.topics 0

/-- A pure log-filter registration record around a `LogFilter` spec. -/
def mkLogFilter (S : LogFilter) : Filter :=
  ⟨0, FilterType.log, S, 0, none⟩

/-- A log filter spec with no constraints at all. -/
def emptyLF : LogFilter := ⟨none, none, [], [], none, none⟩

/-- Benign environment: every resolution yields block 0, every query yields
no data. -/
def envOkZero : Env :=
  ⟨fun _ => Except.ok 0, fun _ _ _ _ _ _ => Except.ok [],
   fun _ => Except.ok [], fun _ => Except.ok []⟩

/-- A log whose only topic is 2 (it violates a `[[1]]` topic constraint). -/
def badLog : EthLog := ⟨100, [2]⟩

/-- Environment whose log-query collaborator ignores the topic argument and
returns `badLog` unconditionally. -/
def envTopicBlind : Env :=
  ⟨fun _ => Except.ok 0, fun _ _ _ _ _ _ => Except.ok [badLog],
   fun _ => Except.ok [], fun _ => Except.ok []⟩

/-- A log filter whose only constraint is topic slot 0 = {1}. -/
def fLogTopic1 : Filter := ⟨1, FilterType.log, ⟨none, none, [], [[1]], none, none⟩, 0, none⟩

/-- A block filter with `LastPoll = 5`. -/
def fBlock : Filter := ⟨2, FilterType.block, emptyLF, 5, none⟩

/-- Environment whose block-hash and pending-tx collaborators fail. -/
def envErrHashes : Env :=
  ⟨fun _ => Except.ok 0, fun _ _ _ _ _ _ => Except.ok [],
   fun _ => Except.error 3, fun _ => Except.error 3⟩

/-- Environment whose block-number resolution always fails. -/
def envResolveErr : Env :=
  ⟨fun _ => Except.error ⟨ErrCode.defaultCode, ErrMsg.blockNumberResolutionFailed⟩,
   fun _ _ _ _ _ _ => Except.ok [], fun _ => Except.ok [], fun _ => Except.ok []⟩

/-- Environment whose block-number resolution always yields block 5. -/
def envResolve5 : Env :=
  ⟨fun _ => Except.ok 5, fun _ _ _ _ _ _ => Except.ok [],
   fun _ => Except.ok [], fun _ => Except.ok []⟩

/-- A new-block event for block number 6 with hash 60 and one log from
address 100 with topic 1. -/
def evBug : NewL2BlockEvent := ⟨6, 60, [⟨100, [1]⟩]⟩

/-- A connection-bound log filter pinned to block hash 50 (differs from
`evBug`'s hash 60, so the pre-filter skip test rejects it). -/
def skipF : Filter := ⟨3, FilterType.log, ⟨none, none, [], [], some 50, none⟩, 0, some 1⟩

/-- A connection-bound log filter with no constraints: it survives the
pre-filter skip test and matches every log. -/
def passF : Filter := ⟨4, FilterType.log, emptyLF, 0, some 2⟩

/-- Seventeen live log filters, so that `parallelize` with 16 workers puts
`skipF` and `passF` together in worker 0's chunk. -/
def bugFilters : List Filter := skipF :: passF :: List.replicate 15 skipF

/-- A subscription log filter constrained to `FromBlock = 9`. -/
def fFrom9 : Filter := ⟨6, FilterType.log, ⟨some 9, none, [], [], none, none⟩, 0, some 1⟩

/-- Chunk function failing (panicking) on worker 0 and succeeding with 42
elsewhere. -/
def fnPanic0 : Nat → List Nat → Except Err Nat :=
  fun w _ => if w = 0 then Except.error 7 else Except.ok 42

/-- The topic loop of `filterLogs` agrees with the spec's positional slot walk
on the slots from position `i` on, provided the loop has enough iterations
left to reach the end of the filter's slot list. -/
theorem topicsLoopAux_eq_slotsAccept (lTopics : List Hash) :
    ∀ (fuel : Nat) (fTopics : List (List Hash)) (i : Nat),
      fTopics.length ≤ i + fuel →
      topicsLoopAux fTopics lTopics i fuel = slotsAccept (fTopics.drop i) lTopics i := by
  intro fuel
  induction fuel with
  | zero =>
    intro fTopics i h
    have hd : fTopics.drop i = [] := List.drop_eq_nil_of_le (by omega)
    rw [hd]
    rfl
  | succ fuel ih =>
    intro fTopics i h
    by_cases hi : i < fTopics.length
    · have hget : fTopics[i]? = some fTopics[i] := List.getElem?_eq_getElem hi
      have hdrop : fTopics.drop i = fTopics[i] :: fTopics.drop (i + 1) :=
        List.drop_eq_getElem_cons hi
      rw [hdrop]
      show (match fTopics[i]? with
            | none => true
            | some slot =>
              if slot.length = 0 then topicsLoopAux fTopics lTopics (i + 1) fuel
              else
                match lTopics[i]? with
                | none => false
                | some t =>
                  if contains slot t then topicsLoopAux fTopics lTopics (i + 1) fuel
                  else false) = _
      rw [hget]
      have ihs : topicsLoopAux fTopics lTopics (i + 1) fuel
          = slotsAccept (fTopics.drop (i + 1)) lTopics (i + 1) :=
        ih fTopics (i + 1) (by omega)
      by_cases hs : (fTopics[i]).length = 0
      · simp only [slotsAccept, hs, if_pos rfl, ihs]
        simp
      · simp only [slotsAccept, hs, if_neg hs, ite_false]
        cases hlt : lTopics[i]? with
        | none => simp
        | some t =>
          cases hc : contains fTopics[i] t with
          | true => simp [ihs]
          | false => simp [hc]
    · have hd : fTopics.drop i = [] := List.drop_eq_nil_of_le (by omega)
      have hget : fTopics[i]? = none := List.getElem?_eq_none (by omega)
      rw [hd]
      show (match fTopics[i]? with
            | none => true
            | some slot =>
              if slot.length = 0 then topicsLoopAux fTopics lTopics (i + 1) fuel
              else
                match lTopics[i]? with
                | none => false
                | some t =>
                  if contains slot t then topicsLoopAux fTopics lTopics (i + 1) fuel
                  else false) = _
      rw [hget]
      rfl

/-- The per-log predicate of `filterLogs` equals the spec's reference matcher
for any filter whose topic list fits in the source's `maxTopics` slots. -/
theorem logMatches_eq_matchesSpec (S : LogFilter) (L : EthLog)
    (hS : S.topics.length ≤ maxTopics) :
    logMatches S L = matchesSpec S L := by
  have htop : (if S.topics.length > 0 then topicsLoopAux S.topics L.topics 0 maxTopics
      else true) = slotsAccept S.topics L.topics 0 := by
    cases hts : S.topics with
    | nil => rfl
    | cons t ts =>
      have : topicsLoopAux (t :: ts) L.topics 0 maxTopics
          = slotsAccept ((t :: ts).drop 0) L.topics 0 :=
        topicsLoopAux_eq_slotsAccept L.topics maxTopics (t :: ts) 0 (by rw [← hts]; omega)
      simpa using this
  unfold logMatches matchesSpec
  cases ha : S.addresses with
  | nil => simpa using htop
  | cons a as =>
    cases hc : contains (a :: as) L.address with
    | true => simpa [hc] using htop
    | false => simp [hc]

/-- Claim C3: the log-matching predicate (`filterLogs` applied to a single
log) equals the reference definition: a log is kept iff the address check
passes (empty address set is a wildcard) and every topic slot the spec defines
accepts it positionally; in particular the match fails whenever the address
set is non-empty and does not contain the log's address, and succeeds for
every log when the address set and the topic slots are both empty. -/
theorem C3_filterLogs_matches_reference (S : LogFilter) (L : EthLog)
    (hS : S.topics.length ≤ maxTopics) :
    (filterLogs [L] (mkLogFilter S) = if matchesSpec S L then [NewLog L] else [])
    ∧ (contains S.addresses L.address = false → S.addresses ≠ [] →
        filterLogs [L] (mkLogFilter S) = [])
    ∧ (S.addresses = [] → S.topics = [] →
        filterLogs [L] (mkLogFilter S) = [NewLog L]) := by
  have hparams : (mkLogFilter S).parameters = S := rfl
  have hfl : filterLogs [L] (mkLogFilter S)
      = if logMatches S L then [NewLog L] else [] := by
    unfold filterLogs
    rw [hparams]
    cases hm : logMatches S L <;> simp [List.filter_cons, hm]
  refine ⟨?_, ?_, ?_⟩
  · rw [hfl, logMatches_eq_matchesSpec S L hS]
  · intro hc hne
    have hm : logMatches S L = false := by
      unfold logMatches
      cases ha : S.addresses with
      | nil => exact absurd ha hne
      | cons a as =>
        rw [ha] at hc
        simp [hc]
    rw [hfl, hm]
    rfl
  · intro ha ht
    have hm : logMatches S L = true := by
      unfold logMatches
      simp [ha, ht]
    rw [hfl, hm]
    rfl

/-- Witness for C3 at a concrete spec (topic slot 0 = {5}) and log. -/
theorem C3_witness :
    filterLogs [(⟨1, [5]⟩ : EthLog)] (mkLogFilter ⟨none, none, [], [[5]], none, none⟩)
      = [NewLog ⟨1, [5]⟩] := by
  rw [(C3_filterLogs_matches_reference ⟨none, none, [], [[5]], none, none⟩ ⟨1, [5]⟩
    (by decide)).1]
  decide

/-- Claim C9: `GetFilterLogs` on an existing filter whose type is not `Log`
returns a null result with no error and leaves the store untouched. -/
theorem C9_getFilterLogs_nonlog_null (env : Env) (storage : List Filter)
    (filterID : FilterId) (f : Filter)
    (hfind : getFilter storage filterID = some f)
    (htype : f.type ≠ FilterType.log) :
    GetFilterLogs env storage filterID = (Except.ok none, storage) := by
  unfold GetFilterLogs
  rw [hfind]
  simp [htype]

/-- Witness for C9: a block filter looked up by its ID. -/
theorem C9_witness :
    GetFilterLogs envOkZero [fBlock] 2 = (Except.ok none, [fBlock]) :=
  C9_getFilterLogs_nonlog_null envOkZero [fBlock] 2 fBlock (by decide) (by decide)

/-- Counterexample to claim C8 as stated: on a store containing no filter,
`GetFilterLogs` returns a null result with no error instead of failing with a
NotFound error (the source returns `nil, nil` on `ErrNotFound`). -/
theorem C8_counterexample :
    (GetFilterLogs envOkZero [] 1).1 = Except.ok none := rfl

/-- Claim C8 as amended: on an unknown filter ID, `GetFilterChanges` fails
with the NotFound RPC error, while `GetFilterLogs` returns a null result with
no error and an unchanged store. -/
theorem C8_amended_notfound_behavior (env : Env) (now : Time)
    (storage : List Filter) (filterID : FilterId)
    (habsent : getFilter storage filterID = none) :
    (GetFilterChanges env now storage filterID).1
      = Except.error ⟨ErrCode.defaultCode, ErrMsg.filterNotFound⟩
    ∧ GetFilterLogs env storage filterID = (Except.ok none, storage) := by
  constructor
  · unfold GetFilterChanges
    rw [habsent]
  · unfold GetFilterLogs
    rw [habsent]

/-- Witness for the amended C8 on an empty store. -/
theorem C8_amended_witness :
    (GetFilterChanges envOkZero 0 [] 1).1
      = Except.error ⟨ErrCode.defaultCode, ErrMsg.filterNotFound⟩ :=
  (C8_amended_notfound_behavior envOkZero 0 [] 1 rfl).1

/-- Counterexample to claim C2 as stated: with a chain-state collaborator that
ignores topic predicates, the Log branch of `GetFilterChanges` returns a log
that violates the filter's topic-slot constraints — no LogMatcher filtering is
applied to the collaborator's result before returning it. -/
theorem C2_counterexample :
    getFilterChangesCore envTopicBlind 7 fLogTopic1
      = (Except.ok (some (FilterChanges.logs [badLog])), 7)
    ∧ logMatches fLogTopic1.parameters badLog = false := by
  constructor
  · rfl
  · decide

/-- Claim C2 as amended: the Log branch of `GetFilterChanges` passes the
filter's topic constraints (with addresses, block hash and `Since = LastPoll`)
to the chain-state collaborator's log-query primitive and returns the
collaborator's logs unchanged (modulo the `types.NewLog` conversion); it
applies no LogMatcher filtering of its own. -/
theorem C2_amended_poll_delegates_topic_filtering (env : Env) (now : Time)
    (f : Filter) (fb tb : Nat) (ls : List EthLog)
    (ht : f.type = FilterType.log)
    (hfrom : ((withSince f).fromBlock = none ∧ fb = 0)
      ∨ ∃ r, (withSince f).fromBlock = some r
          ∧ env.resolveBlockRef (some r) = Except.ok fb)
    (hto : env.resolveBlockRef (withSince f).toBlock = Except.ok tb)
    (hlogs : env.getLogs fb tb (withSince f).addresses (withSince f).topics
        (withSince f).blockHash (withSince f).since = Except.ok ls)
    (hne : ls ≠ []) :
    getFilterChangesCore env now f
      = (Except.ok (some (FilterChanges.logs (ls.map NewLog))), now) := by
  have hfb2 : resolveFromBlock env (withSince f).fromBlock = Except.ok fb := by
    rcases hfrom with ⟨hnone, hfb⟩ | ⟨r, hr, hres⟩
    · subst hfb
      rw [hnone]
      rfl
    · rw [hr]
      exact hres
  have hint : internalGetLogs env (withSince f) = Except.ok (ls.map NewLog) := by
    simp [internalGetLogs, hfb2, hto, hlogs]
  simp [getFilterChangesCore, ht, hint, hne]

/-- Witness for the amended C2: the topic-blind collaborator's log is returned
unchanged by the poll. -/
theorem C2_amended_witness :
    getFilterChangesCore envTopicBlind 7 fLogTopic1
      = (Except.ok (some (FilterChanges.logs ([badLog].map NewLog))), 7) :=
  C2_amended_poll_delegates_topic_filtering envTopicBlind 7 fLogTopic1 0 0 [badLog]
    rfl (Or.inl ⟨rfl, rfl⟩) rfl rfl (by decide)

/-- Claim C6: in every filter-type branch of `GetFilterChanges`, a collaborator
retrieval error is returned to the caller with the `LastPoll` cursor left
unchanged, and the cursor is advanced to `now` exactly on the success paths. -/
theorem C6_lastPoll_advances_only_on_success (env : Env) (now : Time) (f : Filter) :
    ((f.type = FilterType.block → ∀ e, env.getL2BlockHashesSince f.lastPoll = Except.error e →
        getFilterChangesCore env now f
          = (Except.error ⟨ErrCode.defaultCode, ErrMsg.failedToGetBlockHashes⟩, f.lastPoll))
    ∧ (f.type = FilterType.pendingTx → ∀ e,
        env.getPendingTxHashesSince f.lastPoll = Except.error e →
        getFilterChangesCore env now f
          = (Except.error ⟨ErrCode.defaultCode, ErrMsg.failedToGetPendingTxHashes⟩, f.lastPoll))
    ∧ (f.type = FilterType.log → ∀ e, internalGetLogs env (withSince f) = Except.error e →
        getFilterChangesCore env now f = (Except.error e, f.lastPoll))
    ∧ (∀ e, (getFilterChangesCore env now f).1 = Except.error e →
        (getFilterChangesCore env now f).2 = f.lastPoll)
    ∧ (∀ v, (getFilterChangesCore env now f).1 = Except.ok v →
        (getFilterChangesCore env now f).2 = now)) := by
  refine ⟨?_, ?_, ?_, ?_, ?_⟩
  · intro ht e he
    simp [getFilterChangesCore, ht, he]
  · intro ht e he
    simp [getFilterChangesCore, ht, he]
  · intro ht e he
    simp [getFilterChangesCore, ht, he]
  · intro e he
    cases ht : f.type with
    | block =>
      cases hr : env.getL2BlockHashesSince f.lastPoll with
      | error e2 => simp [getFilterChangesCore, ht, hr]
      | ok res =>
        exfalso
        by_cases hlen : res.length = 0 <;> simp [getFilterChangesCore, ht, hr, hlen] at he
    | pendingTx =>
      cases hr : env.getPendingTxHashesSince f.lastPoll with
      | error e2 => simp [getFilterChangesCore, ht, hr]
      | ok res =>
        exfalso
        by_cases hlen : res.length = 0 <;> simp [getFilterChangesCore, ht, hr, hlen] at he
    | log =>
      cases hr : internalGetLogs env (withSince f) with
      | error e2 => simp [getFilterChangesCore, ht, hr]
      | ok res =>
        exfalso
        by_cases hlen : res.length = 0 <;> simp [getFilterChangesCore, ht, hr, hlen] at he
  · intro v hv
    cases ht : f.type with
    | block =>
      cases hr : env.getL2BlockHashesSince f.lastPoll with
      | error e2 => exfalso; simp [getFilterChangesCore, ht, hr] at hv
      | ok res =>
        by_cases hlen : res.length = 0 <;> simp [getFilterChangesCore, ht, hr, hlen]
    | pendingTx =>
      cases hr : env.getPendingTxHashesSince f.lastPoll with
      | error e2 => exfalso; simp [getFilterChangesCore, ht, hr] at hv
      | ok res =>
        by_cases hlen : res.length = 0 <;> simp [getFilterChangesCore, ht, hr, hlen]
    | log =>
      cases hr : internalGetLogs env (withSince f) with
      | error e2 => exfalso; simp [getFilterChangesCore, ht, hr] at hv
      | ok res =>
        by_cases hlen : res.length = 0 <;> simp [getFilterChangesCore, ht, hr, hlen]

/-- Witness for C6: a failing block-hash collaborator leaves `LastPoll` at 5. -/
theorem C6_witness :
    getFilterChangesCore envErrHashes 9 fBlock
      = (Except.error ⟨ErrCode.defaultCode, ErrMsg.failedToGetBlockHashes⟩, 5) :=
  (C6_lastPoll_advances_only_on_success envErrHashes 9 fBlock).1 rfl 3 rfl

/-- Claim C7: assuming block-number resolution succeeds, the pre-filter skip
test rejects a log filter iff its `BlockHash` constraint differs from the
event block's hash, or (with no `BlockHash` constraint) its resolved
`FromBlock` exceeds the event block's number, or its resolved `ToBlock` is
below the event block's number. -/
theorem C7_shouldSkip_characterization (env : Env) (event : NewL2BlockEvent) (f : Filter)
    (hres : ∀ r e, env.resolveBlockRef (some r) ≠ Except.error e) :
    shouldSkipLogFilter env event f = true ↔
      ((∃ bh, f.parameters.blockHash = some bh ∧ bh ≠ event.blockHash)
       ∨ (f.parameters.blockHash = none ∧ ∃ r n, f.parameters.fromBlock = some r
            ∧ env.resolveBlockRef (some r) = Except.ok n ∧ event.blockNumber < n)
       ∨ (f.parameters.blockHash = none ∧ ∃ r n, f.parameters.toBlock = some r
            ∧ env.resolveBlockRef (some r) = Except.ok n ∧ n < event.blockNumber)) := by
  cases hbh : f.parameters.blockHash with
  | some bh => simp [shouldSkipLogFilter, hbh]
  | none =>
    cases hfrom : f.parameters.fromBlock with
    | none =>
      cases hto : f.parameters.toBlock with
      | none => simp [shouldSkipLogFilter, hbh, hfrom, hto]
      | some tb =>
        cases hr : env.resolveBlockRef (some tb) with
        | error e2 => exact absurd hr (hres tb e2)
        | ok n =>
          constructor
          · intro h
            refine Or.inr (Or.inr ⟨rfl, tb, n, rfl, hr, ?_⟩)
            simp [shouldSkipLogFilter, hbh, hfrom, hto, hr] at h
            exact h
          · rintro (⟨bh, hsome, _⟩ | ⟨_, r, n2, hsome, _, _⟩ | ⟨_, r, n2, hsome, hok, hlt⟩)
            · exact Option.noConfusion hsome
            · exact Option.noConfusion hsome
            · cases hsome
              rw [hr] at hok
              cases hok
              simp [shouldSkipLogFilter, hbh, hfrom, hto, hr, hlt]
    | some fb =>
      cases hrf : env.resolveBlockRef (some fb) with
      | error e2 => exact absurd hrf (hres fb e2)
      | ok n =>
        by_cases hskip : event.blockNumber < n
        · constructor
          · intro _
            exact Or.inr (Or.inl ⟨rfl, fb, n, rfl, hrf, hskip⟩)
          · intro _
            simp [shouldSkipLogFilter, hbh, hfrom, hrf, hskip]
        · cases hto : f.parameters.toBlock with
          | none =>
            constructor
            · intro h
              exfalso
              simp [shouldSkipLogFilter, hbh, hfrom, hrf, hskip, hto] at h
            · rintro (⟨bh, hsome, _⟩ | ⟨_, r, n2, hsome, hok, hlt⟩ | ⟨_, r, n2, hsome, _, _⟩)
              · exact Option.noConfusion hsome
              · cases hsome
                rw [hrf] at hok
                cases hok
                exact absurd hlt hskip
              · exact Option.noConfusion hsome
          | some tb =>
            cases hr : env.resolveBlockRef (some tb) with
            | error e2 => exact absurd hr (hres tb e2)
            | ok m =>
              constructor
              · intro h
                have hm : m < event.blockNumber := by
                  simp [shouldSkipLogFilter, hbh, hfrom, hrf, hskip, hto, hr] at h
                  exact h
                exact Or.inr (Or.inr ⟨rfl, tb, m, rfl, hr, hm⟩)
              · rintro (⟨bh, hsome, _⟩ | ⟨_, r, n2, hsome, hok, hlt⟩ | ⟨_, r, n2, hsome, hok, hlt⟩)
                · exact Option.noConfusion hsome
                · cases hsome
                  rw [hrf] at hok
                  cases hok
                  exact absurd hlt hskip
                · cases hsome
                  rw [hr] at hok
                  cases hok
                  simp [shouldSkipLogFilter, hbh, hfrom, hrf, hskip, hto, hr, hlt]

/-- Witness for C7: a filter pinned to hash 50 is skipped for the
hash-60 event. -/
theorem C7_witness : shouldSkipLogFilter envResolve5 evBug skipF = true :=
  (C7_shouldSkip_characterization envResolve5 evBug skipF
      (fun _ _ h => Except.noConfusion h)).mpr
    (Or.inl ⟨50, rfl, by decide⟩)

/-- Claim C10: in the pre-filter skip test, a failure to resolve `FromBlock`
(or, when the from-range check passes, a failure to resolve `ToBlock`) makes
`shouldSkipLogFilter` return `true`: the filter is silently skipped, and —
the function being `Bool`-valued and `notifyNewLogs` total — no error is
surfaced to the event-ingestion caller. -/
theorem C10_resolution_failure_skips (env : Env) (event : NewL2BlockEvent) (f : Filter)
    (hbh : f.parameters.blockHash = none) :
    (∀ r e, f.parameters.fromBlock = some r →
        env.resolveBlockRef (some r) = Except.error e →
        shouldSkipLogFilter env event f = true)
    ∧ (∀ r e, f.parameters.toBlock = some r →
        env.resolveBlockRef (some r) = Except.error e →
        (f.parameters.fromBlock = none
          ∨ ∃ r' n, f.parameters.fromBlock = some r'
              ∧ env.resolveBlockRef (some r') = Except.ok n ∧ ¬ event.blockNumber < n) →
        shouldSkipLogFilter env event f = true) := by
  constructor
  · intro r e hr hre
    simp [shouldSkipLogFilter, hbh, hr, hre]
  · intro r e hr hre hfrom
    rcases hfrom with hnone | ⟨r', n, hr', hres', hlt⟩
    · simp [shouldSkipLogFilter, hbh, hnone, hr, hre]
    · simp [shouldSkipLogFilter, hbh, hr', hres', hlt, hr, hre]

/-- Witness for C10: with an always-failing resolver, the `FromBlock = 9`
filter is skipped. -/
theorem C10_witness : shouldSkipLogFilter envResolveErr evBug fFrom9 = true :=
  (C10_resolution_failure_skips envResolveErr evBug fFrom9 rfl).1 9
    ⟨ErrCode.defaultCode, ErrMsg.blockNumberResolutionFailed⟩ rfl rfl

/-- Claim C1 fails on the code: in `notifyNewLogs` the chunk worker executes
`return` (not `continue`) when `shouldSkipLogFilter` rejects a filter, so one
rejected filter aborts its whole chunk. Here `bugFilters` places the rejected
`skipF` before the surviving `passF` in worker 0's chunk: `passF` survives the
skip test and matches the event's log, yet the fan-out enqueues nothing. -/
theorem C1_skip_aborts_chunk :
    notifyNewLogs envOkZero evBug bugFilters = []
    ∧ passF ∈ bugFilters
    ∧ shouldSkipLogFilter envOkZero evBug passF = false
    ∧ filterLogs evBug.logs passF = [⟨100, [1]⟩] := by
  refine ⟨rfl, ?_, rfl, rfl⟩
  decide

/-- Claim C5: a failure (panic) inside one chunk's function is swallowed by
that chunk's own recover wrapper: `parallelize` still yields one entry per
chunk with no error escaping to the caller, and every other chunk whose
function succeeds is processed to its own result, regardless of the failing
chunk. -/
theorem C5_chunk_failure_isolated {T α : Type} (W : Nat) (items : List T)
    (fn : Nat → List T → Except Err α) (p q : Nat × List T) (e : Err) (v : α)
    (hp : p ∈ parallelizeChunks W items) (hq : q ∈ parallelizeChunks W items)
    (hqe : fn q.1 q.2 = Except.error e) (hpv : fn p.1 p.2 = Except.ok v) :
    (parallelize W items fn).length = (parallelizeChunks W items).length
    ∧ (p.1, some v) ∈ parallelize W items fn
    ∧ (q.1, (none : Option α)) ∈ parallelize W items fn := by
  refine ⟨by simp [parallelize], ?_, ?_⟩
  · have h := List.mem_map_of_mem (fun pr => (pr.1, (fn pr.1 pr.2).toOption)) hp
    simpa [parallelize, hpv, Except.toOption] using h
  · have h := List.mem_map_of_mem (fun pr => (pr.1, (fn pr.1 pr.2).toOption)) hq
    simpa [parallelize, hqe, Except.toOption] using h

/-- Witness for C5: worker 0's chunk of [10, 20, 30] fails while worker 1's
chunk still yields its result. -/
theorem C5_witness :
    ((1 : Nat), some (42 : Nat)) ∈ parallelize 2 [10, 20, 30] fnPanic0
    ∧ ((0 : Nat), (none : Option Nat)) ∈ parallelize 2 [10, 20, 30] fnPanic0 :=
  (C5_chunk_failure_isolated 2 [10, 20, 30] fnPanic0 (1, [30]) (0, [10, 20]) 7 42
    (by decide) (by decide) rfl rfl).2

/-- `workersCount` never exceeds the item count. -/
theorem workersCountOf_le_self (maxW n : Nat) : workersCountOf maxW n ≤ n := by
  unfold workersCountOf
  split <;> omega

/-- `workersCount` never exceeds the worker limit. -/
theorem workersCountOf_le_max (maxW n : Nat) : workersCountOf maxW n ≤ maxW := by
  unfold workersCountOf
  split <;> omega

/-- `workersCount` is the minimum of the worker limit and the item count. -/
theorem workersCountOf_eq_min (maxW n : Nat) : workersCountOf maxW n = min maxW n := by
  unfold workersCountOf
  split <;> omega

/-- `workersCount` is positive for a positive limit and a non-empty list. -/
theorem workersCountOf_pos (maxW n : Nat) (hW : 0 < maxW) (hn : 0 < n) :
    0 < workersCountOf maxW n := by
  unfold workersCountOf
  split <;> omega

/-- `jobSize` is positive when the worker count is positive and at most the
item count. -/
theorem jobSizeOf_pos (n wc : Nat) (hwc : 0 < wc) (hle : wc ≤ n) : 0 < jobSizeOf n wc := by
  unfold jobSizeOf
  by_cases hm : n % wc > 0
  · rw [if_pos hm]
    exact Nat.succ_pos _
  · rw [if_neg hm]
    exact Nat.div_pos hle hwc

/-- The code's `jobSize` (division plus one on a remainder) is the ceiling
division of the item count by the worker count. -/
theorem jobSizeOf_eq_ceil (n wc : Nat) (hwc : 0 < wc) :
    jobSizeOf n wc = (n + wc - 1) / wc := by
  unfold jobSizeOf
  by_cases hm : n % wc > 0
  · rw [if_pos hm]
    have hmod := Nat.div_add_mod n wc
    have hlt : n % wc < wc := Nat.mod_lt n hwc
    have he : n + wc - 1 = (n % wc - 1) + wc * (n / wc + 1) := by
      have h2 : wc * (n / wc + 1) = wc * (n / wc) + wc := by ring
      omega
    have hsmall : n % wc - 1 < wc := by omega
    rw [he, Nat.add_mul_div_left _ _ hwc, Nat.div_eq_of_lt hsmall, Nat.zero_add]
  · rw [if_neg hm]
    have hmod := Nat.div_add_mod n wc
    have he : n + wc - 1 = (wc - 1) + wc * (n / wc) := by omega
    have hsmall : wc - 1 < wc := by omega
    rw [he, Nat.add_mul_div_left _ _ hwc, Nat.div_eq_of_lt hsmall, Nat.zero_add]

/-- The workers jointly cover all items: `wc * jobSize ≥ n`. -/
theorem le_wc_mul_jobSizeOf (n wc : Nat) (hwc : 0 < wc) : n ≤ wc * jobSizeOf n wc := by
  unfold jobSizeOf
  have hmod := Nat.div_add_mod n wc
  have hlt : n % wc < wc := Nat.mod_lt n hwc
  by_cases hm : n % wc > 0
  · rw [if_pos hm]
    have h2 : wc * (n / wc + 1) = wc * (n / wc) + wc := by ring
    omega
  · rw [if_neg hm]
    omega

/-- A worker below the skip threshold is emitted with its slice. -/
theorem chunkOf_of_le {T : Type} (items : List T) (js w : Nat)
    (h : w * js ≤ items.length) :
    chunkOf items js w = some (w, sliceOf items js w) := by
  unfold chunkOf
  rw [if_neg (by omega)]

/-- A worker past the skip threshold is dropped. -/
theorem chunkOf_of_gt {T : Type} (items : List T) (js w : Nat)
    (h : items.length < w * js) :
    chunkOf items js w = none := by
  unfold chunkOf
  rw [if_pos (by omega)]

/-- The clamped range end is a minimum. -/
theorem sliceOf_min {T : Type} (items : List T) (js w : Nat) :
    sliceOf items js w
      = (items.drop (w * js)).take (min ((w + 1) * js) items.length - w * js) := by
  unfold sliceOf
  have he : (if (w + 1) * js > items.length then items.length else (w + 1) * js)
      = min ((w + 1) * js) items.length := by
    split <;> omega
  rw [he]

/-- No slice exceeds `jobSize` items. -/
theorem length_sliceOf_le {T : Type} (items : List T) (js w : Nat) :
    (sliceOf items js w).length ≤ js := by
  unfold sliceOf
  rw [List.length_take, List.length_drop]
  have hmul : (w + 1) * js = w * js + js := by ring
  split <;> omega

/-- Concatenating the slices of the first `k` workers yields the first
`k * jobSize` items. -/
theorem flatten_chunks {T : Type} (items : List T) (js : Nat) :
    ∀ k, (((List.range k).filterMap (chunkOf items js)).map Prod.snd).flatten
      = items.take (min (k * js) items.length) := by
  intro k
  induction k with
  | zero => simp
  | succ k ih =>
    rw [List.range_succ, List.filterMap_append, List.map_append, List.flatten_append, ih]
    have hmul : (k + 1) * js = k * js + js := by ring
    by_cases hk : k * js ≤ items.length
    · simp only [List.filterMap_cons, List.filterMap_nil, chunkOf_of_le items js k hk,
        List.map_cons, List.map_nil, List.flatten_cons, List.flatten_nil, List.append_nil]
      rw [sliceOf_min]
      have h1 : min (k * js) items.length = k * js := by omega
      have h2 : k * js + (min ((k + 1) * js) items.length - k * js)
          = min ((k + 1) * js) items.length := by omega
      rw [h1, ← h2, List.take_add]
      have h3 : k * js + ((k + 1) * js ⊓ items.length - k * js) - k * js
          = (k + 1) * js ⊓ items.length - k * js := by omega
      rw [h3]
    · simp only [List.filterMap_cons, List.filterMap_nil, chunkOf_of_gt items js k (by omega),
        List.map_nil, List.flatten_nil, List.append_nil]
      have h1 : min (k * js) items.length = items.length := by omega
      have h2 : min ((k + 1) * js) items.length = items.length := by omega
      rw [h1, h2]

/-- The emitted chunks of the first `k` workers are exactly the slices of the
workers up to the skip threshold, in worker order. -/
theorem chunks_eq_map {T : Type} (items : List T) (js : Nat) (hjs : 0 < js) :
    ∀ k, (List.range k).filterMap (chunkOf items js)
      = (List.range (min k (items.length / js + 1))).map
          (fun w => (w, sliceOf items js w)) := by
  intro k
  induction k with
  | zero => simp
  | succ k ih =>
    rw [List.range_succ, List.filterMap_append, ih]
    by_cases hk : k * js ≤ items.length
    · have hk2 : k ≤ items.length / js := (Nat.le_div_iff_mul_le hjs).mpr hk
      have hmin1 : min k (items.length / js + 1) = k := by omega
      have hmin2 : min (k + 1) (items.length / js + 1) = k + 1 := by omega
      rw [hmin1, hmin2, List.range_succ, List.map_append]
      simp only [List.filterMap_cons, List.filterMap_nil, chunkOf_of_le items js k hk,
        List.map_cons, List.map_nil]
    · have hk2 : ¬ k ≤ items.length / js := by
        intro hc
        exact hk ((Nat.le_div_iff_mul_le hjs).mp hc)
      have hmin1 : min k (items.length / js + 1) = items.length / js + 1 := by omega
      have hmin2 : min (k + 1) (items.length / js + 1) = items.length / js + 1 := by omega
      rw [hmin1, hmin2]
      simp only [List.filterMap_cons, List.filterMap_nil,
        chunkOf_of_gt items js k (by omega), List.append_nil]

/-- Claim C4: for a non-empty item list and a positive worker limit `W`, the
worker-pool splitter partitions the list into contiguous pairwise-disjoint
chunks whose concatenation is the original list (so the chunk function
receives every item exactly once, in order); every chunk holds at most
`ceil(N / min(W, N))` items and every chunk except the last holds exactly that
many; at most `W` chunks (hence concurrent tasks) are spawned; and the fan-out
callers fix the limit `maxWorkers = 16`. -/
theorem C4_parallelize_partition {T : Type} (W : Nat) (items : List T)
    (hW : 0 < W) (hne : items ≠ []) :
    (((parallelizeChunks W items).map Prod.snd).flatten = items)
    ∧ (∀ p ∈ parallelizeChunks W items,
        p.2.length ≤ (items.length + min W items.length - 1) / min W items.length)
    ∧ (∀ i (h : i + 1 < (parallelizeChunks W items).length),
        ((parallelizeChunks W items).get ⟨i, Nat.lt_of_succ_lt h⟩).2.length
          = (items.length + min W items.length - 1) / min W items.length)
    ∧ ((parallelizeChunks W items).length ≤ W)
    ∧ maxWorkers = 16 := by
  have hlen : items.length ≠ 0 := by simpa using hne
  have hn0 : 0 < items.length := Nat.pos_of_ne_zero hlen
  have hwcpos : 0 < workersCountOf W items.length := workersCountOf_pos W items.length hW hn0
  have hwcle : workersCountOf W items.length ≤ items.length := workersCountOf_le_self W items.length
  have hjspos : 0 < jobSizeOf items.length (workersCountOf W items.length) :=
    jobSizeOf_pos items.length (workersCountOf W items.length) hwcpos hwcle
  have hceil : jobSizeOf items.length (workersCountOf W items.length)
      = (items.length + min W items.length - 1) / min W items.length := by
    rw [jobSizeOf_eq_ceil items.length (workersCountOf W items.length) hwcpos,
      workersCountOf_eq_min]
  have hchunks : parallelizeChunks W items
      = (List.range (workersCountOf W items.length)).filterMap
          (chunkOf items (jobSizeOf items.length (workersCountOf W items.length))) := by
    unfold parallelizeChunks
    rw [if_neg hlen]
  have hmapform : parallelizeChunks W items
      = (List.range (min (workersCountOf W items.length)
            (items.length / jobSizeOf items.length (workersCountOf W items.length) + 1))).map
          (fun w => (w, sliceOf items (jobSizeOf items.length (workersCountOf W items.length)) w)) := by
    rw [hchunks, chunks_eq_map items _ hjspos]
  have hlenchunks : (parallelizeChunks W items).length
      = min (workersCountOf W items.length)
          (items.length / jobSizeOf items.length (workersCountOf W items.length) + 1) := by
    rw [hmapform, List.length_map, List.length_range]
  refine ⟨?_, ?_, ?_, ?_, rfl⟩
  · rw [hchunks, flatten_chunks items _ (workersCountOf W items.length)]
    have hcov := le_wc_mul_jobSizeOf items.length (workersCountOf W items.length) hwcpos
    have hmin : min (workersCountOf W items.length
        * jobSizeOf items.length (workersCountOf W items.length)) items.length
        = items.length := by omega
    rw [hmin, List.take_length]
  · intro p hp
    rw [hmapform] at hp
    rcases List.mem_map.mp hp with ⟨w, _, hpe⟩
    rw [← hceil, ← hpe]
    exact length_sliceOf_le items _ w
  · intro i h
    have hi1 : i + 1 < min (workersCountOf W items.length)
        (items.length / jobSizeOf items.length (workersCountOf W items.length) + 1) := by
      rw [← hlenchunks]
      exact h
    have hij : (i + 1) * jobSizeOf items.length (workersCountOf W items.length)
        ≤ items.length := by
      refine (Nat.le_div_iff_mul_le hjspos).mp ?_
      omega
    have hel : (parallelizeChunks W items).get ⟨i, Nat.lt_of_succ_lt h⟩
        = (i, sliceOf items (jobSizeOf items.length (workersCountOf W items.length)) i) := by
      rw [List.get_eq_getElem, List.getElem_of_eq hmapform, List.getElem_map,
        List.getElem_range]
    rw [hel, ← hceil]
    unfold sliceOf
    rw [List.length_take, List.length_drop]
    have hmul : (i + 1) * jobSizeOf items.length (workersCountOf W items.length)
        = i * jobSizeOf items.length (workersCountOf W items.length)
          + jobSizeOf items.length (workersCountOf W items.length) := by ring
    rw [if_neg (by omega)]
    omega
  · rw [hlenchunks]
    have := workersCountOf_le_max W items.length
    omega

/-- Witness for C4 on three items with two workers. -/
theorem C4_witness :
    ((parallelizeChunks 2 [10, 20, 30]).map Prod.snd).flatten = [10, 20, 30] :=
  (C4_parallelize_partition 2 [10, 20, 30] (by decide) (by decide)).1

end ZkEVM
